import Mathlib

set_option linter.unusedSectionVars false
set_option linter.unusedVariables false

/-!
Verification development for the SASA grid rasterization core (sasa.cpp).

The C code is shallowly embedded here.  Floating point values are idealized
as exact elements of a linear ordered field with a floor function: the
definitions are generic in the field `K`, so they can be instantiated at `ℚ`
(fully executable, used for concrete evaluations) and at `ℝ` (used for the
full pipeline, whose sphere-point generator needs sqrt, sin and cos).
`M_PI` is the pi constant defined at the top of sasa.cpp.  The process
abort `exit(1)` on degenerate geometry is modeled by `Except.error`.
-/

/-- Error surfaced by the degenerate-geometry abort (the printf + exit(1)
block in the neighbor scan of asa_frame). -/
inductive SasaError where
  | degenerateAtoms : SasaError
deriving DecidableEq

/-- Decidable equality of Except values, used for concrete evaluation of
computation results. -/
instance {e a : Type} [DecidableEq e] [DecidableEq a] : DecidableEq (Except e a) := fun x y =>
  match x, y with
  | .ok u, .ok v =>
    if h : u = v then .isTrue (by rw [h])
    else .isFalse (by intro hc; injection hc; contradiction)
  | .error u, .error v =>
    if h : u = v then .isTrue (by rw [h])
    else .isFalse (by intro hc; injection hc; contradiction)
  | .ok _, .error _ => .isFalse (by intro hc; cases hc)
  | .error _, .ok _ => .isFalse (by intro hc; cases hc)

/-- A 3d point (x, y, z). -/
abbrev Pt3 (K : Type) := K × K × K

section Embedding

variable {K : Type} [LinearOrderedField K] [FloorRing K]

/-- The M_PI constant of sasa.cpp: 3.14159265358979323846. -/
def M_PI : K := 314159265358979323846 / 10 ^ 20

/-- Componentwise difference of two points (fvec4 subtraction with w = 0). -/
def sub3 (a b : Pt3 K) : Pt3 K := (a.1 - b.1, a.2.1 - b.2.1, a.2.2 - b.2.2)

/-- The dot3 product of vectorize.h restricted to the three coordinates. -/
def dot3 (a b : Pt3 K) : K := a.1 * b.1 + a.2.1 * b.2.1 + a.2.2 * b.2.2

/-- Position of atom i, reading frame as an array of points. -/
def atomPos (frame : List (Pt3 K)) (i : ℕ) : Pt3 K := frame.getD i (0, 0, 0)

/-- C roundf: round to the nearest integer, halves away from zero. -/
def roundf (x : K) : ℤ := if 0 ≤ x then ⌊x + 1 / 2⌋ else ⌈x - 1 / 2⌉

/-- C cast from a floating value to int: truncation toward zero. -/
def truncToInt (x : K) : ℤ := if 0 ≤ x then ⌊x⌋ else ⌈x⌉

/-- Voxel index of one coordinate in asa_frame: snap the coordinate to the
nearest multiple of the grid spacing, divide by the spacing and truncate. -/
def voxelIndex (grid_spacing c : K) : ℤ :=
  truncToInt ((roundf (c / grid_spacing) : K) * grid_spacing / grid_spacing)

/-- Flattened grid index iz * countsY * countsX + iy * countsX + ix. -/
def gridIndexFlat (counts : ℤ × ℤ × ℤ) (ix iy iz : ℤ) : ℤ :=
  iz * counts.2.1 * counts.1 + iy * counts.1 + ix

/-- The bounds check of asa_frame before a grid store. -/
def voxelInBounds (counts : ℤ × ℤ × ℤ) (ix iy iz : ℤ) : Bool :=
  decide (0 ≤ ix) && decide (ix < counts.1) && decide (0 ≤ iy) && decide (iy < counts.2.1)
    && decide (0 ≤ iz) && decide (iz < counts.2.2)

/-- Total number of grid points counts[0] * counts[1] * counts[2]. -/
def totalGridPoints (counts : ℤ × ℤ × ℤ) : ℤ := counts.1 * counts.2.1 * counts.2.2

/-- The store out_grid[grid_index] += value. -/
def addToGrid (g : List K) (idx : ℤ) (v : K) : List K :=
  g.set idx.toNat (g.getD idx.toNat 0 + v)

/-- The rasterization block of asa_frame for one accessible point: snap the
coordinates to the grid, compute the voxel indices, and accumulate the value
when the indices pass the bounds check (out-of-grid points are dropped). -/
def rasterizePoint (counts : ℤ × ℤ × ℤ) (grid_spacing value : K) (g : List K) (p : Pt3 K) :
    List K :=
  let ix := voxelIndex grid_spacing p.1
  let iy := voxelIndex grid_spacing p.2.1
  let iz := voxelIndex grid_spacing p.2.2
  if voxelInBounds counts ix iy iz then addToGrid g (gridIndexFlat counts ix iy iz) value else g

/-- The occlusion test of asa_frame: point p lies strictly inside the sphere
of atom a (squared distance below the squared radius of a). -/
def occludesB (frame : List (Pt3 K)) (radii : List K) (p : Pt3 K) (a : ℕ) : Bool :=
  let r := radii.getD a 0
  let r_jk := sub3 p (atomPos frame a)
  decide (dot3 r_jk r_jk < r * r)

/-- The inner k-loop of asa_frame: scan fuel many positions k, k+1, ... of
the neighbor list, reduced modulo n, and return the first (unwrapped)
counter k whose neighbor occludes the point, if any. -/
def findBlockerAux (occAt : ℕ → Bool) (n : ℕ) : ℕ → ℕ → Option ℕ
  | _, 0 => none
  | k, fuel + 1 => if occAt (k % n) then some k else findBlockerAux occAt n (k + 1) fuel

/-- One full cyclic pass over the neighbor list, starting at the rotating
offset and wrapping around exactly once (the loop from k_closest_neighbor to
n_neighbor_indices + k_closest_neighbor). -/
def findBlocker (frame : List (Pt3 K)) (radii : List K) (nbrs : List ℕ) (p : Pt3 K)
    (start : ℕ) : Option ℕ :=
  findBlockerAux (fun t => occludesB frame radii p (nbrs.getD t 0)) nbrs.length start nbrs.length

/-- The cyclic-scan-with-memory classification of asa_frame: classify each
point as exposed (true) or occluded (false), carrying the rotating offset
k_closest_neighbor which is updated to the blocking counter on occlusion. -/
def classifyPoints (frame : List (Pt3 K)) (radii : List K) (nbrs : List ℕ) :
    List (Pt3 K) → ℕ → List (Pt3 K × Bool)
  | [], _ => []
  | p :: ps, kc =>
    match findBlocker frame radii nbrs p kc with
    | some k => (p, false) :: classifyPoints frame radii nbrs ps k
    | none => (p, true) :: classifyPoints frame radii nbrs ps kc

/-- Rasterize the points already classified: accessible points accumulate
into the grid, occluded points contribute nothing. -/
def rasterizeExposed (counts : ℤ × ℤ × ℤ) (grid_spacing value : K) :
    List (Pt3 K × Bool) → List K → List K
  | [], g => g
  | pb :: cls, g =>
    rasterizeExposed counts grid_spacing value cls
      (if pb.2 then rasterizePoint counts grid_spacing value g pb.1 else g)

/-- The fused accessibility j-loop of asa_frame: for each centered sphere
point, run the cyclic neighbor scan from the rotating offset; on occlusion
update the offset, otherwise rasterize the point into the grid. -/
def accessLoop (frame : List (Pt3 K)) (radii : List K) (nbrs : List ℕ) (counts : ℤ × ℤ × ℤ)
    (grid_spacing value : K) : List (Pt3 K) → ℕ → List K → List K
  | [], _, g => g
  | p :: ps, kc, g =>
    match findBlocker frame radii nbrs p kc with
    | some k => accessLoop frame radii nbrs counts grid_spacing value ps k g
    | none =>
      accessLoop frame radii nbrs counts grid_spacing value ps kc
        (rasterizePoint counts grid_spacing value g p)

/-- The neighbor j-loop of asa_frame for atom i over the remaining atom
indices js, with accumulator acc: skip j = i, append j when the squared
distance is below the squared radius sum, and abort with the degenerate
geometry error when the squared distance is below 1e-10. -/
def neighborScanAux (frame : List (Pt3 K)) (radii : List K) (i : ℕ) :
    List ℕ → List ℕ → Except SasaError (List ℕ)
  | acc, [] => .ok acc
  | acc, j :: js =>
    if i = j then neighborScanAux frame radii i acc js
    else
      let r_ij := sub3 (atomPos frame i) (atomPos frame j)
      let radius_cutoff := radii.getD i 0 + radii.getD j 0
      let r2 := dot3 r_ij r_ij
      let acc2 := if r2 < radius_cutoff * radius_cutoff then acc ++ [j] else acc
      if r2 < 1 / 10 ^ 10 then .error .degenerateAtoms else neighborScanAux frame radii i acc2 js

/-- The full neighbor scan of asa_frame for atom i: all atoms j below
n_atoms in ascending order. -/
def neighborScan (frame : List (Pt3 K)) (radii : List K) (n_atoms i : ℕ) :
    Except SasaError (List ℕ) :=
  neighborScanAux frame radii i [] (List.range n_atoms)

/-- Center the sphere points on atom i: frame[i] + atom_radius_i * point. -/
def centerSpherePoints (frame : List (Pt3 K)) (radii : List K) (sphere_points : List (Pt3 K))
    (n_sphere_points i : ℕ) : List (Pt3 K) :=
  (List.range n_sphere_points).map (fun j =>
    let s := sphere_points.getD j (0, 0, 0)
    let c := atomPos frame i
    let r := radii.getD i 0
    (c.1 + r * s.1, c.2.1 + r * s.2.1, c.2.2 + r * s.2.2))

/-- The body of the atom loop of asa_frame for one selected atom i: neighbor
scan (which can abort), sphere point centering, then the fused
accessibility and rasterization loop starting with rotating offset 0. -/
def processAtom (frame : List (Pt3 K)) (radii : List K) (sphere_points : List (Pt3 K))
    (n_sphere_points : ℕ) (counts : ℤ × ℤ × ℤ) (grid_spacing constant : K) (n_atoms i : ℕ)
    (g : List K) : Except SasaError (List K) :=
  match neighborScan frame radii n_atoms i with
  | .error e => .error e
  | .ok nbrs =>
    let centered := centerSpherePoints frame radii sphere_points n_sphere_points i
    let value := constant * radii.getD i 0 * radii.getD i 0
    .ok (accessLoop frame radii nbrs counts grid_spacing value centered 0 g)

/-- The atom loop of asa_frame over the atom indices: atoms whose selection
mask entry is 0 are skipped entirely, the others are processed in order. -/
def atomLoop (frame : List (Pt3 K)) (radii : List K) (sphere_points : List (Pt3 K))
    (n_sphere_points : ℕ) (mask : List ℤ) (counts : ℤ × ℤ × ℤ) (grid_spacing constant : K)
    (n_atoms : ℕ) : List ℕ → List K → Except SasaError (List K)
  | [], g => .ok g
  | i :: rest, g =>
    if mask.getD i 0 = 0 then
      atomLoop frame radii sphere_points n_sphere_points mask counts grid_spacing constant
        n_atoms rest g
    else
      match processAtom frame radii sphere_points n_sphere_points counts grid_spacing constant
          n_atoms i g with
      | .error e => .error e
      | .ok g2 =>
        atomLoop frame radii sphere_points n_sphere_points mask counts grid_spacing constant
          n_atoms rest g2

/-- asa_frame: zero the output grid of counts[0] * counts[1] * counts[2]
cells, compute the per-point constant 4 * M_PI / n_sphere_points, then run
the atom loop over all atoms. -/
def asa_frame (frame : List (Pt3 K)) (n_atoms : ℕ) (radii : List K)
    (sphere_points : List (Pt3 K)) (n_sphere_points : ℕ) (mask : List ℤ)
    (counts : ℤ × ℤ × ℤ) (grid_spacing : K) : Except SasaError (List K) :=
  let g0 := List.replicate (totalGridPoints counts).toNat (0 : K)
  let constant := 4 * M_PI / (n_sphere_points : K)
  atomLoop frame radii sphere_points n_sphere_points mask counts grid_spacing constant n_atoms
    (List.range n_atoms) g0

/-- Exposure of a point by a naive linear scan of the full neighbor list
from offset 0, performed independently of any other point; stated from the
words of the spec (4.3) as the comparator for the cyclic scan. -/
def naiveExposed (frame : List (Pt3 K)) (radii : List K) (nbrs : List ℕ) (p : Pt3 K) : Bool :=
  !(nbrs.any (fun a => occludesB frame radii p a))

/-- Classification of every point by the naive independent linear scan. -/
def naiveClassify (frame : List (Pt3 K)) (radii : List K) (nbrs : List ℕ)
    (ps : List (Pt3 K)) : List (Pt3 K × Bool) :=
  ps.map (fun p => (p, naiveExposed frame radii nbrs p))

/-- Membership criterion of the neighbor scan: j differs from i and the
squared distance is below the squared sum of radii (no mask involved). -/
def isNeighborB (frame : List (Pt3 K)) (radii : List K) (i j : ℕ) : Bool :=
  !(i == j) &&
    (let r_ij := sub3 (atomPos frame i) (atomPos frame j)
     let radius_cutoff := radii.getD i 0 + radii.getD j 0
     decide (dot3 r_ij r_ij < radius_cutoff * radius_cutoff))

/-- A point passes the voxel bounds check of asa_frame. -/
def pointInGrid (counts : ℤ × ℤ × ℤ) (grid_spacing : K) (p : Pt3 K) : Bool :=
  voxelInBounds counts (voxelIndex grid_spacing p.1) (voxelIndex grid_spacing p.2.1)
    (voxelIndex grid_spacing p.2.2)

/-- A point passes the bounds check and its flattened voxel index is c. -/
def hitsCell (counts : ℤ × ℤ × ℤ) (grid_spacing : K) (c : ℕ) (p : Pt3 K) : Bool :=
  pointInGrid counts grid_spacing p &&
    (gridIndexFlat counts (voxelIndex grid_spacing p.1) (voxelIndex grid_spacing p.2.1)
        (voxelIndex grid_spacing p.2.2) == (c : ℤ))

/-- The frame passed to asa_frame by sasa: the n_atoms points of snapshot k
inside the flat coordinate list. -/
def frameSlice (xyzlist : List (Pt3 K)) (n_atoms k : ℕ) : List (Pt3 K) :=
  (xyzlist.drop (k * n_atoms)).take n_atoms

/-- The frame loop of sasa over the frame indices: each frame is processed
by asa_frame into its own output slice; a degenerate-geometry abort ends
the whole computation. -/
def frameLoop (xyzlist : List (Pt3 K)) (n_atoms : ℕ) (radii : List K)
    (sphere_points : List (Pt3 K)) (n_sphere_points : ℕ) (mask : List ℤ)
    (counts : ℤ × ℤ × ℤ) (grid_spacing : K) : List ℕ → Except SasaError (List (List K))
  | [] => .ok []
  | k :: ks =>
    match asa_frame (frameSlice xyzlist n_atoms k) n_atoms radii sphere_points n_sphere_points
        mask counts grid_spacing with
    | .error e => .error e
    | .ok g =>
      match frameLoop xyzlist n_atoms radii sphere_points n_sphere_points mask counts
          grid_spacing ks with
      | .error e => .error e
      | .ok gs => .ok (g :: gs)

end Embedding

/-- Body of the generate_sphere_points loop for index i: inc and offset are
the loop-invariant values M_PI * (3 - sqrt 5) and 2 / n_points. -/
noncomputable def spiralPoint (n_points i : ℕ) : Pt3 ℝ :=
  let inc : ℝ := M_PI * (3 - Real.sqrt 5)
  let offset : ℝ := 2 / (n_points : ℝ)
  let y := (i : ℝ) * offset - 1 + offset / 2
  let r := Real.sqrt (1 - y * y)
  let phi := (i : ℝ) * inc
  (Real.cos phi * r, y, Real.sin phi * r)

/-- generate_sphere_points: the golden section spiral points, built over the
reals with the M_PI constant of sasa.cpp. -/
noncomputable def generate_sphere_points (n_points : ℕ) : List (Pt3 ℝ) :=
  (List.range n_points).map (spiralPoint n_points)

/-- sasa: generate the sphere points once, then process every frame with
asa_frame, each into its own slice of the output. -/
noncomputable def sasa (n_frames n_atoms : ℕ) (xyzlist : List (Pt3 ℝ)) (radii : List ℝ)
    (n_sphere_points : ℕ) (mask : List ℤ) (counts : ℤ × ℤ × ℤ) (grid_spacing : ℝ) :
    Except SasaError (List (List ℝ)) :=
  frameLoop xyzlist n_atoms radii (generate_sphere_points n_sphere_points) n_sphere_points
    mask counts grid_spacing (List.range n_frames)

section ScanLemmas

variable {K : Type} [LinearOrderedField K] [FloorRing K]

lemma findBlockerAux_eq_none_iff (occAt : ℕ → Bool) (n : ℕ) :
    ∀ fuel k, findBlockerAux occAt n k fuel = none ↔
      ∀ m, m < fuel → occAt ((k + m) % n) = false := by
  intro fuel
  induction fuel with
  | zero =>
    intro k
    constructor
    · intro _ m hm
      exact absurd hm (Nat.not_lt_zero m)
    · intro _
      rfl
  | succ f ih =>
    intro k
    rw [findBlockerAux]
    cases hocc : occAt (k % n) with
    | true =>
      rw [if_pos rfl]
      constructor
      · intro h; cases h
      · intro h
        have h0 := h 0 (Nat.succ_pos f)
        rw [Nat.add_zero, hocc] at h0
        cases h0
    | false =>
      rw [if_neg Bool.false_ne_true]
      rw [ih (k + 1)]
      constructor
      · intro h m hm
        cases m with
        | zero => rw [Nat.add_zero]; exact hocc
        | succ m0 =>
          rw [show k + (m0 + 1) = k + 1 + m0 from by omega]
          exact h m0 (by omega)
      · intro h m hm
        rw [show k + 1 + m = k + (m + 1) from by omega]
        exact h (m + 1) (by omega)

lemma exists_mod_shift (n k : ℕ) (hn : n ≠ 0) (occAt : ℕ → Bool) :
    (∃ m, m < n ∧ occAt ((k + m) % n) = true) ↔ ∃ t, t < n ∧ occAt t = true := by
  constructor
  · rintro ⟨m, _, hocc⟩
    exact ⟨(k + m) % n, Nat.mod_lt _ (Nat.pos_of_ne_zero hn), hocc⟩
  · rintro ⟨t, ht, hocc⟩
    refine ⟨(n - k % n + t) % n, Nat.mod_lt _ (Nat.pos_of_ne_zero hn), ?_⟩
    have hmod : k % n < n := Nat.mod_lt _ (Nat.pos_of_ne_zero hn)
    have h1 : (k + (n - k % n + t) % n) % n = (k + (n - k % n + t)) % n := by
      conv_lhs => rw [Nat.add_mod]
      conv_rhs => rw [Nat.add_mod]
      rw [Nat.mod_mod_of_dvd _ dvd_rfl]
    have h2 : k + (n - k % n + t) = t + n * (k / n + 1) := by
      have h3 := Nat.div_add_mod k n
      rw [Nat.mul_add, Nat.mul_one]
      generalize k / n = q at h3 ⊢
      generalize n * q = P at h3 ⊢
      generalize k % n = a at h3 hmod ⊢
      omega
    rw [h1, h2, Nat.add_mul_mod_self_left, Nat.mod_eq_of_lt ht]
    exact hocc

lemma findBlocker_eq_none_iff (frame : List (Pt3 K)) (radii : List K) (nbrs : List ℕ)
    (p : Pt3 K) (start : ℕ) :
    findBlocker frame radii nbrs p start = none ↔
      ∀ a ∈ nbrs, occludesB frame radii p a = false := by
  rcases eq_or_ne nbrs.length 0 with hn | hn
  · have hnil : nbrs = [] := List.length_eq_zero.mp hn
    subst hnil
    simp [findBlocker, findBlockerAux]
  · rw [findBlocker, findBlockerAux_eq_none_iff]
    constructor
    · intro H a ha
      obtain ⟨t, ht, rfl⟩ := List.getElem_of_mem ha
      by_contra hocc
      have hocc2 : occludesB frame radii p (nbrs.getD t 0) = true := by
        rw [List.getD_eq_getElem _ _ ht]
        revert hocc
        cases occludesB frame radii p (nbrs[t]) <;> simp
      obtain ⟨m, hm, hocc3⟩ :=
        (exists_mod_shift nbrs.length start hn
          (fun t => occludesB frame radii p (nbrs.getD t 0))).mpr ⟨t, ht, hocc2⟩
      rw [H m hm] at hocc3
      cases hocc3
    · intro H m hm
      by_contra hocc
      have hocc2 : occludesB frame radii p (nbrs.getD ((start + m) % nbrs.length) 0) = true := by
        revert hocc
        cases occludesB frame radii p (nbrs.getD ((start + m) % nbrs.length) 0) <;> simp
      obtain ⟨t, ht, ho⟩ :=
        (exists_mod_shift nbrs.length start hn
          (fun t => occludesB frame radii p (nbrs.getD t 0))).mp ⟨m, hm, hocc2⟩
      have hmem : nbrs.getD t 0 ∈ nbrs := by
        rw [List.getD_eq_getElem _ _ ht]
        exact List.getElem_mem ht
      rw [H _ hmem] at ho
      cases ho

lemma classifyPoints_eq_naive (frame : List (Pt3 K)) (radii : List K) (nbrs : List ℕ) :
    ∀ (ps : List (Pt3 K)) (kc : ℕ),
      classifyPoints frame radii nbrs ps kc = naiveClassify frame radii nbrs ps := by
  intro ps
  induction ps with
  | nil => intro kc; rfl
  | cons p ps ih =>
    intro kc
    rw [naiveClassify, List.map_cons]
    cases hfb : findBlocker frame radii nbrs p kc with
    | none =>
      have hcl : classifyPoints frame radii nbrs (p :: ps) kc
          = (p, true) :: classifyPoints frame radii nbrs ps kc := by
        rw [classifyPoints, hfb]
      have hexp : naiveExposed frame radii nbrs p = true := by
        rw [naiveExposed, Bool.not_eq_true']
        rw [List.any_eq_false]
        intro a ha
        rw [(findBlocker_eq_none_iff frame radii nbrs p kc).mp hfb a ha]
        simp
      rw [hcl, hexp, ih kc]
      rfl
    | some k =>
      have hcl : classifyPoints frame radii nbrs (p :: ps) kc
          = (p, false) :: classifyPoints frame radii nbrs ps k := by
        rw [classifyPoints, hfb]
      have hne : ¬ ∀ a ∈ nbrs, occludesB frame radii p a = false := by
        intro hall
        rw [← findBlocker_eq_none_iff frame radii nbrs p kc] at hall
        rw [hfb] at hall
        cases hall
      have hexp : naiveExposed frame radii nbrs p = false := by
        push_neg at hne
        obtain ⟨a, ha, hocc⟩ := hne
        have hocc2 : occludesB frame radii p a = true := by
          revert hocc
          cases occludesB frame radii p a <;> simp
        rw [naiveExposed, Bool.not_eq_false']
        rw [List.any_eq_true]
        exact ⟨a, ha, hocc2⟩
      rw [hcl, hexp, ih k]
      rfl

lemma classifyPoints_nil_nbrs (frame : List (Pt3 K)) (radii : List K) :
    ∀ (ps : List (Pt3 K)) (kc : ℕ),
      classifyPoints frame radii [] ps kc = ps.map (fun p => (p, true)) := by
  intro ps
  induction ps with
  | nil => intro kc; rfl
  | cons p ps ih =>
    intro kc
    rw [classifyPoints]
    have hfb : findBlocker frame radii [] p kc = none := rfl
    rw [hfb, List.map_cons, ih kc]

lemma accessLoop_eq_rasterizeExposed (frame : List (Pt3 K)) (radii : List K) (nbrs : List ℕ)
    (counts : ℤ × ℤ × ℤ) (grid_spacing value : K) :
    ∀ (ps : List (Pt3 K)) (kc : ℕ) (g : List K),
      accessLoop frame radii nbrs counts grid_spacing value ps kc g
        = rasterizeExposed counts grid_spacing value (classifyPoints frame radii nbrs ps kc) g := by
  intro ps
  induction ps with
  | nil => intro kc g; rfl
  | cons p ps ih =>
    intro kc g
    rw [accessLoop, classifyPoints]
    cases hfb : findBlocker frame radii nbrs p kc with
    | some k =>
      rw [rasterizeExposed]
      simp only [if_neg (by simp : ¬ ((p, false).2 = true))]
      exact ih k g
    | none =>
      rw [rasterizeExposed]
      simp only [if_pos (by simp : ((p, true).2 = true))]
      exact ih kc _

lemma neighborScanAux_ok (frame : List (Pt3 K)) (radii : List K) (i : ℕ) :
    ∀ (js acc L : List ℕ), neighborScanAux frame radii i acc js = .ok L →
      L = acc ++ js.filter (fun j => isNeighborB frame radii i j) := by
  intro js
  induction js with
  | nil =>
    intro acc L h
    simp only [neighborScanAux] at h
    cases h
    simp
  | cons j js ih =>
    intro acc L h
    simp only [neighborScanAux] at h
    rw [List.filter_cons]
    by_cases hij : i = j
    · rw [if_pos hij] at h
      have hnb : isNeighborB frame radii i j = false := by
        simp [isNeighborB, hij]
      rw [hnb, if_neg Bool.false_ne_true]
      exact ih acc L h
    · rw [if_neg hij] at h
      by_cases hdeg : dot3 (sub3 (atomPos frame i) (atomPos frame j))
          (sub3 (atomPos frame i) (atomPos frame j)) < 1 / 10 ^ 10
      · rw [if_pos hdeg] at h
        cases h
      · rw [if_neg hdeg] at h
        by_cases hcut : dot3 (sub3 (atomPos frame i) (atomPos frame j))
            (sub3 (atomPos frame i) (atomPos frame j))
            < (radii.getD i 0 + radii.getD j 0) * (radii.getD i 0 + radii.getD j 0)
        · rw [if_pos hcut] at h
          have hnb : isNeighborB frame radii i j = true := by
            simp [isNeighborB, hij, hcut, -List.getD_eq_getElem?_getD]
          rw [hnb, if_pos rfl]
          rw [ih (acc ++ [j]) L h]
          simp
        · rw [if_neg hcut] at h
          have hnb : isNeighborB frame radii i j = false := by
            simp [isNeighborB, hij, hcut, -List.getD_eq_getElem?_getD]
          rw [hnb, if_neg Bool.false_ne_true]
          exact ih acc L h

lemma neighborScanAux_ok_of_no_degenerate (frame : List (Pt3 K)) (radii : List K) (i : ℕ) :
    ∀ (js acc : List ℕ),
      (∀ j ∈ js, i ≠ j → ¬ dot3 (sub3 (atomPos frame i) (atomPos frame j))
          (sub3 (atomPos frame i) (atomPos frame j)) < 1 / 10 ^ 10) →
      neighborScanAux frame radii i acc js
        = .ok (acc ++ js.filter (fun j => isNeighborB frame radii i j)) := by
  intro js
  induction js with
  | nil =>
    intro acc _
    simp only [neighborScanAux, List.filter_nil, List.append_nil]
  | cons j js ih =>
    intro acc hnd
    simp only [neighborScanAux]
    rw [List.filter_cons]
    by_cases hij : i = j
    · rw [if_pos hij]
      have hnb : isNeighborB frame radii i j = false := by
        simp [isNeighborB, hij]
      rw [hnb, if_neg Bool.false_ne_true]
      exact ih acc (fun a ha hia => hnd a (List.mem_cons_of_mem j ha) hia)
    · rw [if_neg hij]
      have hdeg := hnd j (List.mem_cons_self j js) hij
      rw [if_neg hdeg]
      by_cases hcut : dot3 (sub3 (atomPos frame i) (atomPos frame j))
          (sub3 (atomPos frame i) (atomPos frame j))
          < (radii.getD i 0 + radii.getD j 0) * (radii.getD i 0 + radii.getD j 0)
      · rw [if_pos hcut]
        have hnb : isNeighborB frame radii i j = true := by
          simp [isNeighborB, hij, hcut, -List.getD_eq_getElem?_getD]
        rw [hnb, if_pos rfl]
        rw [ih (acc ++ [j]) (fun a ha hia => hnd a (List.mem_cons_of_mem j ha) hia)]
        simp
      · rw [if_neg hcut]
        have hnb : isNeighborB frame radii i j = false := by
          simp [isNeighborB, hij, hcut, -List.getD_eq_getElem?_getD]
        rw [hnb, if_neg Bool.false_ne_true]
        exact ih acc (fun a ha hia => hnd a (List.mem_cons_of_mem j ha) hia)

lemma neighborScanAux_error (frame : List (Pt3 K)) (radii : List K) (i : ℕ) :
    ∀ (js acc : List ℕ) (j : ℕ), j ∈ js → i ≠ j →
      dot3 (sub3 (atomPos frame i) (atomPos frame j))
        (sub3 (atomPos frame i) (atomPos frame j)) < 1 / 10 ^ 10 →
      neighborScanAux frame radii i acc js = .error .degenerateAtoms := by
  intro js
  induction js with
  | nil =>
    intro acc j hj
    exact absurd hj (List.not_mem_nil j)
  | cons a js ih =>
    intro acc j hj hij hdeg
    simp only [neighborScanAux]
    by_cases hia : i = a
    · rw [if_pos hia]
      have hja : j ∈ js := by
        cases List.mem_cons.mp hj with
        | inl hja2 => exact absurd (hja2 ▸ hia) hij
        | inr h2 => exact h2
      exact ih acc j hja hij hdeg
    · rw [if_neg hia]
      by_cases hda : dot3 (sub3 (atomPos frame i) (atomPos frame a))
          (sub3 (atomPos frame i) (atomPos frame a)) < 1 / 10 ^ 10
      · rw [if_pos hda]
      · rw [if_neg hda]
        have hja : j ∈ js := by
          cases List.mem_cons.mp hj with
          | inl hja2 =>
            subst hja2
            exact absurd hdeg hda
          | inr h2 => exact h2
        by_cases hcut : dot3 (sub3 (atomPos frame i) (atomPos frame a))
            (sub3 (atomPos frame i) (atomPos frame a))
            < (radii.getD i 0 + radii.getD a 0) * (radii.getD i 0 + radii.getD a 0)
        · rw [if_pos hcut]
          exact ih (acc ++ [a]) j hja hij hdeg
        · rw [if_neg hcut]
          exact ih acc j hja hij hdeg

lemma neighborScan_ok_eq_filter (frame : List (Pt3 K)) (radii : List K) (n_atoms i : ℕ)
    (L : List ℕ) (hok : neighborScan frame radii n_atoms i = .ok L) :
    L = (List.range n_atoms).filter (fun j => isNeighborB frame radii i j) := by
  have h := neighborScanAux_ok frame radii i (List.range n_atoms) [] L hok
  rw [List.nil_append] at h
  exact h

lemma mem_neighborScan_iff (frame : List (Pt3 K)) (radii : List K) (n_atoms i j : ℕ)
    (L : List ℕ) (hok : neighborScan frame radii n_atoms i = .ok L) :
    j ∈ L ↔ j < n_atoms ∧ j ≠ i ∧
      dot3 (sub3 (atomPos frame i) (atomPos frame j)) (sub3 (atomPos frame i) (atomPos frame j))
        < (radii.getD i 0 + radii.getD j 0) * (radii.getD i 0 + radii.getD j 0) := by
  rw [neighborScan_ok_eq_filter frame radii n_atoms i L hok, List.mem_filter, List.mem_range]
  constructor
  · rintro ⟨hlt, hnb⟩
    simp only [isNeighborB, Bool.and_eq_true, Bool.not_eq_true', beq_eq_false_iff_ne, ne_eq,
      decide_eq_true_eq] at hnb
    exact ⟨hlt, fun hji => hnb.1 hji.symm, hnb.2⟩
  · rintro ⟨hlt, hji, hcut⟩
    refine ⟨hlt, ?_⟩
    simp only [isNeighborB, Bool.and_eq_true, Bool.not_eq_true', beq_eq_false_iff_ne, ne_eq,
      decide_eq_true_eq]
    exact ⟨fun hij => hji hij.symm, hcut⟩

end ScanLemmas

/-- C1: for every atom geometry, every neighbor list (including empty and
single-element lists) and every set of sphere points, the
cyclic-scan-with-memory classification of asa_frame started at rotating
offset 0 marks exactly the points that a naive independent linear scan of
the full neighbor list from offset 0 marks; the fused accessibility loop of
asa_frame rasterizes exactly the points this classification marks exposed,
from any rotating offset; and with an empty neighbor list every point is
classified exposed. -/
theorem c1_cyclic_scan_matches_naive {K : Type} [LinearOrderedField K] [FloorRing K]
    (frame : List (Pt3 K)) (radii : List K) (nbrs : List ℕ) (ps : List (Pt3 K))
    (counts : ℤ × ℤ × ℤ) (grid_spacing value : K) (kc : ℕ) (g : List K) :
    classifyPoints frame radii nbrs ps 0 = naiveClassify frame radii nbrs ps
    ∧ accessLoop frame radii nbrs counts grid_spacing value ps kc g
        = rasterizeExposed counts grid_spacing value (classifyPoints frame radii nbrs ps kc) g
    ∧ classifyPoints frame radii ([] : List ℕ) ps 0 = ps.map (fun p => (p, true)) :=
  ⟨classifyPoints_eq_naive frame radii nbrs ps 0,
   accessLoop_eq_rasterizeExposed frame radii nbrs counts grid_spacing value ps kc g,
   classifyPoints_nil_nbrs frame radii ps 0⟩

/-- C5: when the neighbor scan of asa_frame for atom i succeeds, the list it
produces is exactly the ascending filter of all atom indices below n_atoms
keeping the j different from i whose squared distance to atom i is strictly
below the squared sum of the two radii; membership is as the claim states it
and the list is strictly ascending (scan order). -/
theorem c5_neighbor_list_characterization {K : Type} [LinearOrderedField K] [FloorRing K]
    (frame : List (Pt3 K)) (radii : List K) (n_atoms i j : ℕ) (L : List ℕ)
    (hok : neighborScan frame radii n_atoms i = .ok L) :
    L = (List.range n_atoms).filter (fun j2 => isNeighborB frame radii i j2)
    ∧ (j ∈ L ↔ j < n_atoms ∧ j ≠ i ∧
        dot3 (sub3 (atomPos frame i) (atomPos frame j)) (sub3 (atomPos frame i) (atomPos frame j))
          < (radii.getD i 0 + radii.getD j 0) * (radii.getD i 0 + radii.getD j 0))
    ∧ L.Pairwise (· < ·) := by
  have hL := neighborScan_ok_eq_filter frame radii n_atoms i L hok
  refine ⟨hL, mem_neighborScan_iff frame radii n_atoms i j L hok, ?_⟩
  rw [hL]
  exact (List.pairwise_lt_range n_atoms).filter _

/-- Witness for C5 at a concrete three-atom rational frame. -/
theorem c5_neighbor_list_characterization_witness :
    neighborScan (K := ℚ) [(0,0,0),(1,0,0),(5,0,0)] [1,1/2,1] 3 0 = .ok [1]
    ∧ ([1] = (List.range 3).filter
          (fun j2 => isNeighborB (K := ℚ) [(0,0,0),(1,0,0),(5,0,0)] [1,1/2,1] 0 j2)
      ∧ ((1 : ℕ) ∈ [1] ↔ 1 < 3 ∧ 1 ≠ 0 ∧
          dot3 (sub3 (atomPos (K := ℚ) [(0,0,0),(1,0,0),(5,0,0)] 0)
              (atomPos (K := ℚ) [(0,0,0),(1,0,0),(5,0,0)] 1))
            (sub3 (atomPos (K := ℚ) [(0,0,0),(1,0,0),(5,0,0)] 0)
              (atomPos (K := ℚ) [(0,0,0),(1,0,0),(5,0,0)] 1))
            < (([1,1/2,1] : List ℚ).getD 0 0 + ([1,1/2,1] : List ℚ).getD 1 0)
              * (([1,1/2,1] : List ℚ).getD 0 0 + ([1,1/2,1] : List ℚ).getD 1 0))
      ∧ ([1] : List ℕ).Pairwise (· < ·)) :=
 by
  have h : neighborScan (K := ℚ) [(0,0,0),(1,0,0),(5,0,0)] [1,1/2,1] 3 0 = .ok [1] := by
    norm_num [neighborScan, neighborScanAux, atomPos, sub3, dot3, List.range_succ]
  exact ⟨h, c5_neighbor_list_characterization [(0,0,0),(1,0,0),(5,0,0)] [1,1/2,1] 3 0 1 [1] h⟩

section GridLemmas

variable {K : Type} [LinearOrderedField K] [FloorRing K]

lemma voxelInBounds_iff (counts : ℤ × ℤ × ℤ) (ix iy iz : ℤ) :
    voxelInBounds counts ix iy iz = true ↔
      0 ≤ ix ∧ ix < counts.1 ∧ 0 ≤ iy ∧ iy < counts.2.1 ∧ 0 ≤ iz ∧ iz < counts.2.2 := by
  simp [voxelInBounds, and_assoc]

lemma gridIndexFlat_bounds (counts : ℤ × ℤ × ℤ) (ix iy iz : ℤ)
    (hb : voxelInBounds counts ix iy iz = true) :
    0 ≤ gridIndexFlat counts ix iy iz ∧ gridIndexFlat counts ix iy iz < totalGridPoints counts := by
  obtain ⟨h1, h2, h3, h4, h5, h6⟩ := (voxelInBounds_iff counts ix iy iz).mp hb
  have hcx : (0 : ℤ) < counts.1 := lt_of_le_of_lt h1 h2
  have hcy : (0 : ℤ) < counts.2.1 := lt_of_le_of_lt h3 h4
  constructor
  · have t1 : (0 : ℤ) ≤ iz * counts.2.1 * counts.1 :=
      mul_nonneg (mul_nonneg h5 hcy.le) hcx.le
    have t2 : (0 : ℤ) ≤ iy * counts.1 := mul_nonneg h3 hcx.le
    rw [gridIndexFlat]
    linarith
  · rw [gridIndexFlat, totalGridPoints]
    have s1 : iz * counts.2.1 * counts.1 + iy * counts.1 + ix
        < (iz * counts.2.1 + iy + 1) * counts.1 := by nlinarith
    have s2 : iz * counts.2.1 + iy + 1 ≤ (iz + 1) * counts.2.1 := by nlinarith
    have s3 : (iz * counts.2.1 + iy + 1) * counts.1 ≤ (iz + 1) * counts.2.1 * counts.1 :=
      mul_le_mul_of_nonneg_right s2 hcx.le
    have s4 : (iz + 1) * counts.2.1 ≤ counts.2.2 * counts.2.1 :=
      mul_le_mul_of_nonneg_right (by omega) hcy.le
    have s5 : (iz + 1) * counts.2.1 * counts.1 ≤ counts.2.2 * counts.2.1 * counts.1 :=
      mul_le_mul_of_nonneg_right s4 hcx.le
    calc iz * counts.2.1 * counts.1 + iy * counts.1 + ix
        < (iz * counts.2.1 + iy + 1) * counts.1 := s1
      _ ≤ (iz + 1) * counts.2.1 * counts.1 := s3
      _ ≤ counts.2.2 * counts.2.1 * counts.1 := s5
      _ = counts.1 * counts.2.1 * counts.2.2 := by ring

lemma length_addToGrid (g : List K) (idx : ℤ) (v : K) :
    (addToGrid g idx v).length = g.length := by
  rw [addToGrid]
  simp

lemma length_rasterizePoint (counts : ℤ × ℤ × ℤ) (grid_spacing value : K) (g : List K)
    (p : Pt3 K) : (rasterizePoint counts grid_spacing value g p).length = g.length := by
  rw [rasterizePoint]
  by_cases hb : voxelInBounds counts (voxelIndex grid_spacing p.1) (voxelIndex grid_spacing p.2.1)
      (voxelIndex grid_spacing p.2.2) = true
  · rw [if_pos hb, length_addToGrid]
  · rw [if_neg hb]

lemma length_rasterizeExposed (counts : ℤ × ℤ × ℤ) (grid_spacing value : K) :
    ∀ (cls : List (Pt3 K × Bool)) (g : List K),
      (rasterizeExposed counts grid_spacing value cls g).length = g.length := by
  intro cls
  induction cls with
  | nil => intro g; rfl
  | cons pb cls ih =>
    intro g
    rw [rasterizeExposed]
    rw [ih]
    by_cases hb : pb.2 = true
    · rw [if_pos hb, length_rasterizePoint]
    · rw [if_neg hb]

lemma getD_addToGrid_self (g : List K) (idx : ℤ) (v : K) (hnn : 0 ≤ idx)
    (hlt : idx.toNat < g.length) :
    (addToGrid g idx v).getD idx.toNat 0 = g.getD idx.toNat 0 + v := by
  rw [addToGrid]
  simp [List.getD_eq_getElem?_getD, List.getElem?_set_self, hlt]

lemma getD_addToGrid_ne (g : List K) (idx : ℤ) (v : K) (c : ℕ) (hne : idx.toNat ≠ c) :
    (addToGrid g idx v).getD c 0 = g.getD c 0 := by
  rw [addToGrid]
  simp [List.getD_eq_getElem?_getD, List.getElem?_set_ne hne]

lemma rasterizeExposed_getD (counts : ℤ × ℤ × ℤ) (grid_spacing value : K) :
    ∀ (cls : List (Pt3 K × Bool)) (g : List K) (c : ℕ), c < g.length →
      (rasterizeExposed counts grid_spacing value cls g).getD c 0
        = g.getD c 0
          + ((cls.filter (fun pb => pb.2 && hitsCell counts grid_spacing c pb.1)).length : K)
            * value := by
  intro cls
  induction cls with
  | nil =>
    intro g c _
    rw [rasterizeExposed, List.filter_nil]
    simp
  | cons pb cls ih =>
    intro g c hc
    rw [rasterizeExposed, List.filter_cons]
    by_cases hb : pb.2 = true
    · by_cases hin : pointInGrid counts grid_spacing pb.1 = true
      · by_cases hflat : gridIndexFlat counts (voxelIndex grid_spacing pb.1.1)
            (voxelIndex grid_spacing pb.1.2.1) (voxelIndex grid_spacing pb.1.2.2) = (c : ℤ)
        · have hhit : (pb.2 && hitsCell counts grid_spacing c pb.1) = true := by
            rw [hb, hitsCell, hin, hflat]
            simp
          rw [if_pos hhit]
          have hrast : rasterizePoint counts grid_spacing value g pb.1
              = addToGrid g (c : ℤ) value := by
            rw [pointInGrid] at hin
            rw [rasterizePoint, if_pos hin, hflat]
          rw [if_pos hb, hrast]
          have hlen : c < (addToGrid g (c : ℤ) value).length := by
            rw [length_addToGrid]
            exact hc
          rw [ih (addToGrid g (c : ℤ) value) c hlen]
          have hself : (addToGrid g (c : ℤ) value).getD c 0 = g.getD c 0 + value := by
            have h2 := getD_addToGrid_self g (c : ℤ) value (Int.ofNat_nonneg c) (by simpa using hc)
            simpa using h2
          rw [hself, List.length_cons]
          push_cast
          ring
        · have hhit : (pb.2 && hitsCell counts grid_spacing c pb.1) = false := by
            rw [hb, hitsCell]
            simp only [Bool.true_and, Bool.and_eq_false_iff]
            right
            simpa using hflat
          rw [hhit, if_neg Bool.false_ne_true]
          have hnn : 0 ≤ gridIndexFlat counts (voxelIndex grid_spacing pb.1.1)
              (voxelIndex grid_spacing pb.1.2.1) (voxelIndex grid_spacing pb.1.2.2) :=
            (gridIndexFlat_bounds counts _ _ _ hin).1
          have hne : (gridIndexFlat counts (voxelIndex grid_spacing pb.1.1)
              (voxelIndex grid_spacing pb.1.2.1) (voxelIndex grid_spacing pb.1.2.2)).toNat ≠ c := by
            intro heq
            apply hflat
            omega
          have hrast : rasterizePoint counts grid_spacing value g pb.1
              = addToGrid g (gridIndexFlat counts (voxelIndex grid_spacing pb.1.1)
                  (voxelIndex grid_spacing pb.1.2.1) (voxelIndex grid_spacing pb.1.2.2)) value := by
            rw [pointInGrid] at hin
            rw [rasterizePoint, if_pos hin]
          rw [if_pos hb, hrast]
          have hlen : c < (addToGrid g (gridIndexFlat counts (voxelIndex grid_spacing pb.1.1)
              (voxelIndex grid_spacing pb.1.2.1) (voxelIndex grid_spacing pb.1.2.2))
              value).length := by
            rw [length_addToGrid]
            exact hc
          rw [ih _ c hlen, getD_addToGrid_ne g _ value c hne]
      · have hhit : (pb.2 && hitsCell counts grid_spacing c pb.1) = false := by
          rw [hb, hitsCell, Bool.true_and]
          simp only [Bool.and_eq_false_iff]
          left
          simpa using hin
        rw [hhit, if_neg Bool.false_ne_true]
        have hrast : rasterizePoint counts grid_spacing value g pb.1 = g := by
          rw [rasterizePoint, if_neg]
          simpa using hin
        rw [if_pos hb, hrast]
        exact ih g c hc
    · have hb2 : pb.2 = false := by
        revert hb
        cases pb.2 <;> simp
      have hhit : (pb.2 && hitsCell counts grid_spacing c pb.1) = false := by
        rw [hb2, Bool.false_and]
      rw [hhit, if_neg Bool.false_ne_true, if_neg hb]
      exact ih g c hc

end GridLemmas

/-- C2: the accessibility loop of asa_frame adds exactly the per-point value
4 * M_PI / N times the squared atom radius to the cell whose flattened index
the exposed point's snapped coordinates select when the voxel indices pass
the bounds check, and adds nothing to any cell for occluded or out-of-grid
points; contributions accumulate additively on top of whatever the grid
already holds, one value per exposed point hitting the cell. -/
theorem c2_rasterization_contract {K : Type} [LinearOrderedField K] [FloorRing K]
    (frame : List (Pt3 K)) (radii : List K) (nbrs : List ℕ) (counts : ℤ × ℤ × ℤ)
    (grid_spacing r : K) (N : ℕ) (ps : List (Pt3 K)) (kc : ℕ) (g : List K) (c : ℕ)
    (hc : c < g.length) :
    (accessLoop frame radii nbrs counts grid_spacing (4 * M_PI / (N : K) * r * r) ps kc g).getD c 0
      = g.getD c 0
        + (((classifyPoints frame radii nbrs ps kc).filter
              (fun pb => pb.2 && hitsCell counts grid_spacing c pb.1)).length : K)
          * (4 * M_PI / (N : K) * r * r) := by
  rw [accessLoop_eq_rasterizeExposed]
  exact rasterizeExposed_getD counts grid_spacing (4 * M_PI / (N : K) * r * r)
    (classifyPoints frame radii nbrs ps kc) g c hc

/-- Witness for C2: one exposed point of a unit-radius atom at the origin
lands in cell 0 of a one-cell grid. -/
theorem c2_rasterization_contract_witness :
    (0 : ℕ) < ([0] : List ℚ).length
    ∧ (accessLoop (K := ℚ) [(0,0,0)] [1] [] (1,1,1) 1 (4 * M_PI / ((1 : ℕ) : ℚ) * 1 * 1)
          [(0,0,0)] 0 [0]).getD 0 0
      = ([0] : List ℚ).getD 0 0
        + (((classifyPoints (K := ℚ) [(0,0,0)] [1] [] [(0,0,0)] 0).filter
              (fun pb => pb.2 && hitsCell (1,1,1) 1 0 pb.1)).length : ℚ)
          * (4 * M_PI / ((1 : ℕ) : ℚ) * 1 * 1) :=
  ⟨by decide,
   c2_rasterization_contract [(0,0,0)] [1] [] (1,1,1) 1 1 1 [(0,0,0)] 0 [0] 0 (by decide)⟩

section SumLemmas

variable {K : Type} [LinearOrderedField K] [FloorRing K]

lemma sum_set_getD_add (v : K) : ∀ (g : List K) (i : ℕ), i < g.length →
    (g.set i (g.getD i 0 + v)).sum = g.sum + v := by
  intro g
  induction g with
  | nil =>
    intro i hi
    simp at hi
  | cons x t ih =>
    intro i hi
    cases i with
    | zero =>
      simp only [List.set_cons_zero, List.getD_cons_zero, List.sum_cons]
      ring
    | succ i0 =>
      simp only [List.set_cons_succ, List.getD_cons_succ, List.sum_cons]
      rw [ih i0 (by simpa using hi)]
      ring

lemma sum_addToGrid (g : List K) (idx : ℤ) (v : K) (hlt : idx.toNat < g.length) :
    (addToGrid g idx v).sum = g.sum + v := by
  rw [addToGrid]
  exact sum_set_getD_add v g idx.toNat hlt

lemma sum_rasterizePoint (counts : ℤ × ℤ × ℤ) (grid_spacing value : K) (g : List K) (p : Pt3 K)
    (hg : g.length = (totalGridPoints counts).toNat) :
    (rasterizePoint counts grid_spacing value g p).sum
      = g.sum + (if pointInGrid counts grid_spacing p = true then value else 0) := by
  rw [rasterizePoint]
  by_cases hin : voxelInBounds counts (voxelIndex grid_spacing p.1) (voxelIndex grid_spacing p.2.1)
      (voxelIndex grid_spacing p.2.2) = true
  · rw [if_pos hin, if_pos (show pointInGrid counts grid_spacing p = true from hin)]
    have hb := gridIndexFlat_bounds counts _ _ _ hin
    have hlt : (gridIndexFlat counts (voxelIndex grid_spacing p.1) (voxelIndex grid_spacing p.2.1)
        (voxelIndex grid_spacing p.2.2)).toNat < g.length := by
      rw [hg]
      omega
    exact sum_addToGrid g _ value hlt
  · rw [if_neg hin, if_neg (show ¬ pointInGrid counts grid_spacing p = true from hin), add_zero]

lemma sum_rasterizeExposed (counts : ℤ × ℤ × ℤ) (grid_spacing value : K) :
    ∀ (cls : List (Pt3 K × Bool)) (g : List K), g.length = (totalGridPoints counts).toNat →
      (rasterizeExposed counts grid_spacing value cls g).sum
        = g.sum + ((cls.filter
              (fun pb => pb.2 && pointInGrid counts grid_spacing pb.1)).length : K) * value := by
  intro cls
  induction cls with
  | nil =>
    intro g _
    rw [rasterizeExposed, List.filter_nil]
    simp
  | cons pb cls ih =>
    intro g hg
    rw [rasterizeExposed, List.filter_cons]
    by_cases hb : pb.2 = true
    · have hg2 : (rasterizePoint counts grid_spacing value g pb.1).length
          = (totalGridPoints counts).toNat := by
        rw [length_rasterizePoint]
        exact hg
      by_cases hin : pointInGrid counts grid_spacing pb.1 = true
      · have hkeep : (pb.2 && pointInGrid counts grid_spacing pb.1) = true := by
          rw [hb, hin]
          rfl
        rw [hkeep, if_pos rfl, if_pos hb]
        rw [ih _ hg2, sum_rasterizePoint counts grid_spacing value g pb.1 hg, if_pos hin]
        rw [List.length_cons]
        push_cast
        ring
      · have hdrop : (pb.2 && pointInGrid counts grid_spacing pb.1) = false := by
          rw [hb, Bool.true_and]
          revert hin
          cases pointInGrid counts grid_spacing pb.1 <;> simp
        rw [hdrop, if_neg Bool.false_ne_true, if_pos hb]
        rw [ih _ hg2, sum_rasterizePoint counts grid_spacing value g pb.1 hg, if_neg hin, add_zero]
    · have hdrop : (pb.2 && pointInGrid counts grid_spacing pb.1) = false := by
        revert hb
        cases pb.2 <;> simp
      rw [hdrop, if_neg Bool.false_ne_true, if_neg hb]
      exact ih g hg

lemma length_centerSpherePoints (frame : List (Pt3 K)) (radii : List K)
    (sphere_points : List (Pt3 K)) (n_sphere_points i : ℕ) :
    (centerSpherePoints frame radii sphere_points n_sphere_points i).length = n_sphere_points := by
  rw [centerSpherePoints]
  simp

lemma processAtom_of_scan_ok (frame : List (Pt3 K)) (radii : List K)
    (sphere_points : List (Pt3 K)) (n_sphere_points : ℕ) (counts : ℤ × ℤ × ℤ)
    (grid_spacing constant : K) (n_atoms i : ℕ) (g : List K) (nbrs : List ℕ)
    (hnb : neighborScan frame radii n_atoms i = .ok nbrs) :
    processAtom frame radii sphere_points n_sphere_points counts grid_spacing constant n_atoms i g
      = .ok (accessLoop frame radii nbrs counts grid_spacing
          (constant * radii.getD i 0 * radii.getD i 0)
          (centerSpherePoints frame radii sphere_points n_sphere_points i) 0 g) := by
  rw [processAtom, hnb]

end SumLemmas

/-- C8: for a selected atom whose neighbor scan returns the empty list, all
sample points are classified exposed, and processing the atom adds to the
grid total exactly 4 * M_PI times the squared radius (the full sphere area
with the per-point value 4 * M_PI / N times the squared radius) minus one
per-point value for each sample point falling outside the grid bounds. -/
theorem c8_isolated_atom_area {K : Type} [LinearOrderedField K] [FloorRing K]
    (frame : List (Pt3 K)) (radii : List K) (sphere_points : List (Pt3 K)) (N : ℕ)
    (counts : ℤ × ℤ × ℤ) (grid_spacing : K) (n_atoms i : ℕ) (g : List K)
    (hnb : neighborScan frame radii n_atoms i = .ok [])
    (hN : (N : K) ≠ 0)
    (hg : g.length = (totalGridPoints counts).toNat) :
    classifyPoints frame radii [] (centerSpherePoints frame radii sphere_points N i) 0
      = (centerSpherePoints frame radii sphere_points N i).map (fun p => (p, true))
    ∧ processAtom frame radii sphere_points N counts grid_spacing (4 * M_PI / (N : K)) n_atoms i g
        = .ok (accessLoop frame radii [] counts grid_spacing
            (4 * M_PI / (N : K) * radii.getD i 0 * radii.getD i 0)
            (centerSpherePoints frame radii sphere_points N i) 0 g)
    ∧ (accessLoop frame radii [] counts grid_spacing
          (4 * M_PI / (N : K) * radii.getD i 0 * radii.getD i 0)
          (centerSpherePoints frame radii sphere_points N i) 0 g).sum
        = g.sum + 4 * M_PI * radii.getD i 0 * radii.getD i 0
          - (((centerSpherePoints frame radii sphere_points N i).filter
                (fun p => !(pointInGrid counts grid_spacing p))).length : K)
            * (4 * M_PI / (N : K) * radii.getD i 0 * radii.getD i 0) := by
  refine ⟨classifyPoints_nil_nbrs frame radii _ 0,
    processAtom_of_scan_ok frame radii sphere_points N counts grid_spacing _ n_atoms i g [] hnb,
    ?_⟩
  rw [accessLoop_eq_rasterizeExposed, classifyPoints_nil_nbrs]
  rw [sum_rasterizeExposed counts grid_spacing _ _ g hg]
  rw [List.filter_map, List.length_map]
  have hpred : ((fun pb : Pt3 K × Bool => pb.2 && pointInGrid counts grid_spacing pb.1)
      ∘ (fun p : Pt3 K => (p, true))) = fun p => pointInGrid counts grid_spacing p := by
    funext p
    simp
  rw [hpred]
  have hsplit : ((centerSpherePoints frame radii sphere_points N i).filter
        (fun p => pointInGrid counts grid_spacing p)).length
      + ((centerSpherePoints frame radii sphere_points N i).filter
        (fun p => !(pointInGrid counts grid_spacing p))).length
      = N := by
    conv_rhs => rw [← length_centerSpherePoints frame radii sphere_points N i]
    exact (List.length_eq_length_filter_add _).symm
  have hc2 : (((centerSpherePoints frame radii sphere_points N i).filter
        (fun p => pointInGrid counts grid_spacing p)).length : K)
      + (((centerSpherePoints frame radii sphere_points N i).filter
        (fun p => !(pointInGrid counts grid_spacing p))).length : K)
      = (N : K) := by
    exact_mod_cast congrArg (fun n : ℕ => (n : K)) hsplit
  have hNv : (N : K) * (4 * M_PI / (N : K) * radii.getD i 0 * radii.getD i 0)
      = 4 * M_PI * radii.getD i 0 * radii.getD i 0 := by
    field_simp
  linear_combination (4 * M_PI / (N : K) * radii.getD i 0 * radii.getD i 0) * hc2 + hNv

/-- Witness for C8: an isolated unit-radius atom at the origin with one
sample point, a one-cell grid, and unit spacing. -/
theorem c8_isolated_atom_area_witness :
    neighborScan (K := ℚ) [(0,0,0)] [1] 1 0 = .ok []
    ∧ (classifyPoints (K := ℚ) [(0,0,0)] [1] []
          (centerSpherePoints (K := ℚ) [(0,0,0)] [1] [(0,0,0)] 1 0) 0
        = (centerSpherePoints (K := ℚ) [(0,0,0)] [1] [(0,0,0)] 1 0).map (fun p => (p, true))
      ∧ processAtom (K := ℚ) [(0,0,0)] [1] [(0,0,0)] 1 (1,1,1) 1 (4 * M_PI / ((1:ℕ) : ℚ)) 1 0 [0]
          = .ok (accessLoop (K := ℚ) [(0,0,0)] [1] [] (1,1,1) 1
              (4 * M_PI / ((1:ℕ) : ℚ) * ([1] : List ℚ).getD 0 0 * ([1] : List ℚ).getD 0 0)
              (centerSpherePoints (K := ℚ) [(0,0,0)] [1] [(0,0,0)] 1 0) 0 [0])
      ∧ (accessLoop (K := ℚ) [(0,0,0)] [1] [] (1,1,1) 1
            (4 * M_PI / ((1:ℕ) : ℚ) * ([1] : List ℚ).getD 0 0 * ([1] : List ℚ).getD 0 0)
            (centerSpherePoints (K := ℚ) [(0,0,0)] [1] [(0,0,0)] 1 0) 0 [0]).sum
          = ([0] : List ℚ).sum + 4 * M_PI * ([1] : List ℚ).getD 0 0 * ([1] : List ℚ).getD 0 0
            - (((centerSpherePoints (K := ℚ) [(0,0,0)] [1] [(0,0,0)] 1 0).filter
                  (fun p => !(pointInGrid (1,1,1) 1 p))).length : ℚ)
              * (4 * M_PI / ((1:ℕ) : ℚ) * ([1] : List ℚ).getD 0 0 * ([1] : List ℚ).getD 0 0)) := by
  have hnb : neighborScan (K := ℚ) [(0,0,0)] [1] 1 0 = .ok [] := by
    norm_num [neighborScan, neighborScanAux, List.range_succ]
  exact ⟨hnb,
    c8_isolated_atom_area [(0,0,0)] [1] [(0,0,0)] 1 (1,1,1) 1 1 0 [0] hnb (by norm_num)
      (by decide)⟩

/-- C10: with the bounds check of asa_frame passed, the flattened grid index
is nonnegative and strictly below the total cell count; the zero
initialization covers exactly that many cells; and each rasterization step
either leaves the grid unchanged or stores at such an in-range flattened
index, never changing the grid length. -/
theorem c10_grid_writes_in_bounds {K : Type} [LinearOrderedField K] [FloorRing K]
    (counts : ℤ × ℤ × ℤ) (ix iy iz : ℤ) (grid_spacing value : K) (g : List K) (p : Pt3 K)
    (hb : voxelInBounds counts ix iy iz = true)
    (hg : g.length = (totalGridPoints counts).toNat) :
    0 ≤ gridIndexFlat counts ix iy iz
    ∧ gridIndexFlat counts ix iy iz < totalGridPoints counts
    ∧ (List.replicate (totalGridPoints counts).toNat (0 : K)).length
        = (totalGridPoints counts).toNat
    ∧ (rasterizePoint counts grid_spacing value g p).length = g.length
    ∧ (rasterizePoint counts grid_spacing value g p = g
       ∨ (pointInGrid counts grid_spacing p = true
          ∧ 0 ≤ gridIndexFlat counts (voxelIndex grid_spacing p.1) (voxelIndex grid_spacing p.2.1)
              (voxelIndex grid_spacing p.2.2)
          ∧ gridIndexFlat counts (voxelIndex grid_spacing p.1) (voxelIndex grid_spacing p.2.1)
              (voxelIndex grid_spacing p.2.2) < totalGridPoints counts
          ∧ (gridIndexFlat counts (voxelIndex grid_spacing p.1) (voxelIndex grid_spacing p.2.1)
              (voxelIndex grid_spacing p.2.2)).toNat < g.length
          ∧ rasterizePoint counts grid_spacing value g p
              = addToGrid g (gridIndexFlat counts (voxelIndex grid_spacing p.1)
                  (voxelIndex grid_spacing p.2.1) (voxelIndex grid_spacing p.2.2)) value)) := by
  obtain ⟨hb1, hb2⟩ := gridIndexFlat_bounds counts ix iy iz hb
  refine ⟨hb1, hb2, List.length_replicate _ _, length_rasterizePoint counts grid_spacing value g p,
    ?_⟩
  by_cases hin : pointInGrid counts grid_spacing p = true
  · right
    obtain ⟨hp1, hp2⟩ := gridIndexFlat_bounds counts _ _ _ hin
    refine ⟨hin, hp1, hp2, by rw [hg]; omega, ?_⟩
    rw [pointInGrid] at hin
    rw [rasterizePoint, if_pos hin]
  · left
    rw [rasterizePoint, if_neg]
    rw [pointInGrid] at hin
    exact hin

/-- Witness for C10 at a concrete one-cell grid with a point stored in
cell 0. -/
theorem c10_grid_writes_in_bounds_witness :
    voxelInBounds (1,1,1) 0 0 0 = true
    ∧ ([0] : List ℚ).length = (totalGridPoints (1,1,1)).toNat
    ∧ (0 ≤ gridIndexFlat (1,1,1) 0 0 0
      ∧ gridIndexFlat (1,1,1) 0 0 0 < totalGridPoints (1,1,1)
      ∧ (List.replicate (totalGridPoints (1,1,1)).toNat (0 : ℚ)).length
          = (totalGridPoints (1,1,1)).toNat
      ∧ (rasterizePoint (K := ℚ) (1,1,1) 1 5 [0] (0,0,0)).length = ([0] : List ℚ).length
      ∧ (rasterizePoint (K := ℚ) (1,1,1) 1 5 [0] (0,0,0) = [0]
         ∨ (pointInGrid (1,1,1) 1 ((0,0,0) : Pt3 ℚ) = true
            ∧ 0 ≤ gridIndexFlat (1,1,1) (voxelIndex 1 ((0,0,0) : Pt3 ℚ).1)
                (voxelIndex 1 ((0,0,0) : Pt3 ℚ).2.1) (voxelIndex 1 ((0,0,0) : Pt3 ℚ).2.2)
            ∧ gridIndexFlat (1,1,1) (voxelIndex 1 ((0,0,0) : Pt3 ℚ).1)
                (voxelIndex 1 ((0,0,0) : Pt3 ℚ).2.1) (voxelIndex 1 ((0,0,0) : Pt3 ℚ).2.2)
                < totalGridPoints (1,1,1)
            ∧ (gridIndexFlat (1,1,1) (voxelIndex 1 ((0,0,0) : Pt3 ℚ).1)
                (voxelIndex 1 ((0,0,0) : Pt3 ℚ).2.1)
                (voxelIndex 1 ((0,0,0) : Pt3 ℚ).2.2)).toNat < ([0] : List ℚ).length
            ∧ rasterizePoint (K := ℚ) (1,1,1) 1 5 [0] (0,0,0)
                = addToGrid [0] (gridIndexFlat (1,1,1) (voxelIndex 1 ((0,0,0) : Pt3 ℚ).1)
                    (voxelIndex 1 ((0,0,0) : Pt3 ℚ).2.1)
                    (voxelIndex 1 ((0,0,0) : Pt3 ℚ).2.2)) 5))) := by
  refine ⟨by decide, by decide, ?_⟩
  exact c10_grid_writes_in_bounds (1,1,1) 0 0 0 1 5 [0] (0,0,0) (by decide) (by decide)

section AtomLoopLemmas

variable {K : Type} [LinearOrderedField K] [FloorRing K]

lemma sasaError_unique (e : SasaError) : e = .degenerateAtoms := by
  cases e
  rfl

lemma atomLoop_error (frame : List (Pt3 K)) (radii : List K) (sphere_points : List (Pt3 K))
    (n_sphere_points : ℕ) (mask : List ℤ) (counts : ℤ × ℤ × ℤ) (grid_spacing constant : K)
    (n_atoms i : ℕ) (e : SasaError)
    (hsel : mask.getD i 0 ≠ 0)
    (hscan : neighborScan frame radii n_atoms i = .error e) :
    ∀ (l : List ℕ) (g : List K), i ∈ l →
      atomLoop frame radii sphere_points n_sphere_points mask counts grid_spacing constant
        n_atoms l g = .error .degenerateAtoms := by
  intro l
  induction l with
  | nil =>
    intro g hi
    exact absurd hi (List.not_mem_nil i)
  | cons a l ih =>
    intro g hi
    rw [atomLoop]
    by_cases hma : mask.getD a 0 = 0
    · rw [if_pos hma]
      have hia : i ∈ l := by
        cases List.mem_cons.mp hi with
        | inl h => exact absurd (h ▸ hma) hsel
        | inr h => exact h
      exact ih g hia
    · rw [if_neg hma]
      cases hpa : processAtom frame radii sphere_points n_sphere_points counts grid_spacing
          constant n_atoms a g with
      | error e2 =>
        have he2 : e2 = SasaError.degenerateAtoms := sasaError_unique e2
        subst he2
        rfl
      | ok g2 =>
        have hia : i ∈ l := by
          cases List.mem_cons.mp hi with
          | inl h =>
            subst h
            rw [processAtom, hscan] at hpa
            cases hpa
          | inr h => exact h
        exact ih g2 hia

lemma atomLoop_filter_selected (frame : List (Pt3 K)) (radii : List K)
    (sphere_points : List (Pt3 K)) (n_sphere_points : ℕ) (mask : List ℤ) (counts : ℤ × ℤ × ℤ)
    (grid_spacing constant : K) (n_atoms : ℕ) :
    ∀ (l : List ℕ) (g : List K),
      atomLoop frame radii sphere_points n_sphere_points mask counts grid_spacing constant
        n_atoms l g
      = atomLoop frame radii sphere_points n_sphere_points mask counts grid_spacing constant
        n_atoms (l.filter (fun a => !(mask.getD a 0 == 0))) g := by
  intro l
  induction l with
  | nil => intro g; rfl
  | cons a l ih =>
    intro g
    rw [List.filter_cons]
    by_cases hma : mask.getD a 0 = 0
    · have hfa : (!(mask.getD a 0 == 0)) = false := by
        rw [hma]
        rfl
      rw [hfa, if_neg Bool.false_ne_true]
      rw [atomLoop, if_pos hma]
      exact ih g
    · have hfa : (!(mask.getD a 0 == 0)) = true := by
        rw [Bool.not_eq_true']
        exact beq_eq_false_iff_ne.mpr hma
      rw [hfa, if_pos rfl]
      conv_lhs => rw [atomLoop]
      conv_rhs => rw [atomLoop]
      simp only [if_neg hma]
      cases hpa : processAtom frame radii sphere_points n_sphere_points counts grid_spacing
          constant n_atoms a g with
      | error e2 => rfl
      | ok g2 => exact ih g2

end AtomLoopLemmas

/-- C3 counterexample: a frame containing two exactly coincident atoms, both
excluded by the selection mask, is processed silently: asa_frame returns an
ordinary zero grid instead of surfacing the degenerate-geometry error. -/
theorem c3_counterexample :
    dot3 (sub3 (atomPos (K := ℚ) [(0,0,0),(0,0,0)] 0) (atomPos (K := ℚ) [(0,0,0),(0,0,0)] 1))
        (sub3 (atomPos (K := ℚ) [(0,0,0),(0,0,0)] 0) (atomPos (K := ℚ) [(0,0,0),(0,0,0)] 1))
      < 1 / 10 ^ 10
    ∧ asa_frame (K := ℚ) [(0,0,0),(0,0,0)] 2 [1,1] [] 0 [0,0] (1,1,1) 1 = .ok [0] := by
  constructor
  · norm_num [dot3, sub3, atomPos]
  · norm_num [asa_frame, atomLoop, totalGridPoints, List.range_succ, List.getD_cons_zero,
      List.getD_cons_succ, List.replicate]

/-- C3 as amended: whenever a frame contains two distinct atoms i and j at
squared distance below the 1e-10 threshold and atom i is selected by the
mask, asa_frame on that frame surfaces the degenerate-geometry error rather
than producing a grid. -/
theorem c3_degenerate_error_when_selected {K : Type} [LinearOrderedField K] [FloorRing K]
    (frame : List (Pt3 K)) (radii : List K) (sphere_points : List (Pt3 K))
    (n_sphere_points : ℕ) (mask : List ℤ) (counts : ℤ × ℤ × ℤ) (grid_spacing : K)
    (n_atoms i j : ℕ)
    (hi : i < n_atoms) (hj : j < n_atoms) (hij : i ≠ j)
    (hsel : mask.getD i 0 ≠ 0)
    (hdeg : dot3 (sub3 (atomPos frame i) (atomPos frame j))
        (sub3 (atomPos frame i) (atomPos frame j)) < 1 / 10 ^ 10) :
    asa_frame frame n_atoms radii sphere_points n_sphere_points mask counts grid_spacing
      = .error .degenerateAtoms := by
  have hscan : neighborScan frame radii n_atoms i = .error .degenerateAtoms := by
    rw [neighborScan]
    exact neighborScanAux_error frame radii i (List.range n_atoms) [] j (List.mem_range.mpr hj)
      hij hdeg
  rw [asa_frame]
  exact atomLoop_error frame radii sphere_points n_sphere_points mask counts grid_spacing
    (4 * M_PI / (n_sphere_points : K)) n_atoms i .degenerateAtoms hsel hscan
    (List.range n_atoms) (List.replicate (totalGridPoints counts).toNat 0)
    (List.mem_range.mpr hi)

/-- Witness for the amended C3: two coincident atoms with the first one
selected abort the frame with the degenerate-geometry error. -/
theorem c3_degenerate_error_when_selected_witness :
    (0 : ℕ) < 2 ∧ (1 : ℕ) < 2 ∧ (0 : ℕ) ≠ 1
    ∧ ([1,0] : List ℤ).getD 0 0 ≠ 0
    ∧ dot3 (sub3 (atomPos (K := ℚ) [(0,0,0),(0,0,0)] 0) (atomPos (K := ℚ) [(0,0,0),(0,0,0)] 1))
        (sub3 (atomPos (K := ℚ) [(0,0,0),(0,0,0)] 0) (atomPos (K := ℚ) [(0,0,0),(0,0,0)] 1))
      < 1 / 10 ^ 10
    ∧ asa_frame (K := ℚ) [(0,0,0),(0,0,0)] 2 [1,1] [] 0 [1,0] (1,1,1) 1
        = .error .degenerateAtoms := by
  have hdeg : dot3 (sub3 (atomPos (K := ℚ) [(0,0,0),(0,0,0)] 0)
        (atomPos (K := ℚ) [(0,0,0),(0,0,0)] 1))
      (sub3 (atomPos (K := ℚ) [(0,0,0),(0,0,0)] 0) (atomPos (K := ℚ) [(0,0,0),(0,0,0)] 1))
      < 1 / 10 ^ 10 := by
    norm_num [dot3, sub3, atomPos]
  exact ⟨by decide, by decide, by decide, by decide, hdeg,
    c3_degenerate_error_when_selected [(0,0,0),(0,0,0)] [1,1] [] 0 [1,0] (1,1,1) 1 2 0 1
      (by decide) (by decide) (by decide) (by decide) hdeg⟩

/-- C7: atoms with selection mask 0 are skipped entirely by the atom loop
(the loop over all atom indices equals the loop over the selected indices
only, so no sphere point of an unselected atom is ever centered, classified
or rasterized), yet an unselected atom is still a candidate neighbor in the
scan of any atom, with the mask playing no role in the membership
criterion. -/
theorem c7_unselected_atom_skipped_but_occludes {K : Type} [LinearOrderedField K] [FloorRing K]
    (frame : List (Pt3 K)) (radii : List K) (sphere_points : List (Pt3 K))
    (n_sphere_points : ℕ) (mask : List ℤ) (counts : ℤ × ℤ × ℤ) (grid_spacing constant : K)
    (n_atoms i i2 : ℕ) (g : List K) (L : List ℕ)
    (hmask : mask.getD i 0 = 0)
    (hscan : neighborScan frame radii n_atoms i2 = .ok L) :
    atomLoop frame radii sphere_points n_sphere_points mask counts grid_spacing constant
        n_atoms (List.range n_atoms) g
      = atomLoop frame radii sphere_points n_sphere_points mask counts grid_spacing constant
        n_atoms ((List.range n_atoms).filter (fun a => !(mask.getD a 0 == 0))) g
    ∧ i ∉ (List.range n_atoms).filter (fun a => !(mask.getD a 0 == 0))
    ∧ (i ∈ L ↔ i < n_atoms ∧ i ≠ i2 ∧
        dot3 (sub3 (atomPos frame i2) (atomPos frame i)) (sub3 (atomPos frame i2) (atomPos frame i))
          < (radii.getD i2 0 + radii.getD i 0) * (radii.getD i2 0 + radii.getD i 0)) := by
  refine ⟨atomLoop_filter_selected frame radii sphere_points n_sphere_points mask counts
      grid_spacing constant n_atoms (List.range n_atoms) g, ?_,
    mem_neighborScan_iff frame radii n_atoms i2 i L hscan⟩
  intro hmem
  have := (List.mem_filter.mp hmem).2
  rw [hmask] at this
  cases this

/-- Witness for C7: atom 1 is unselected, is skipped by the loop, and is
still the neighbor found by the scan of selected atom 0. -/
theorem c7_unselected_atom_skipped_but_occludes_witness :
    ([1,0] : List ℤ).getD 1 0 = 0
    ∧ neighborScan (K := ℚ) [(0,0,0),(1,0,0)] [1,1] 2 0 = .ok [1]
    ∧ (atomLoop (K := ℚ) [(0,0,0),(1,0,0)] [1,1] [] 0 [1,0] (1,1,1) 1 1 2 (List.range 2) [0]
        = atomLoop (K := ℚ) [(0,0,0),(1,0,0)] [1,1] [] 0 [1,0] (1,1,1) 1 1 2
            ((List.range 2).filter (fun a => !(([1,0] : List ℤ).getD a 0 == 0))) [0]
      ∧ (1 : ℕ) ∉ (List.range 2).filter (fun a => !(([1,0] : List ℤ).getD a 0 == 0))
      ∧ ((1 : ℕ) ∈ [1] ↔ 1 < 2 ∧ (1 : ℕ) ≠ 0 ∧
          dot3 (sub3 (atomPos (K := ℚ) [(0,0,0),(1,0,0)] 0) (atomPos (K := ℚ) [(0,0,0),(1,0,0)] 1))
            (sub3 (atomPos (K := ℚ) [(0,0,0),(1,0,0)] 0) (atomPos (K := ℚ) [(0,0,0),(1,0,0)] 1))
            < (([1,1] : List ℚ).getD 0 0 + ([1,1] : List ℚ).getD 1 0)
              * (([1,1] : List ℚ).getD 0 0 + ([1,1] : List ℚ).getD 1 0))) := by
  have hscan : neighborScan (K := ℚ) [(0,0,0),(1,0,0)] [1,1] 2 0 = .ok [1] := by
    norm_num [neighborScan, neighborScanAux, atomPos, sub3, dot3, List.range_succ]
  exact ⟨by decide, hscan,
    c7_unselected_atom_skipped_but_occludes [(0,0,0),(1,0,0)] [1,1] [] 0 [1,0] (1,1,1) 1 1 2 1 0
      [0] [1] (by decide) hscan⟩

section FrameLemmas

variable {K : Type} [LinearOrderedField K] [FloorRing K]

lemma frameLoop_ok (xyzlist : List (Pt3 K)) (n_atoms : ℕ) (radii : List K)
    (sphere_points : List (Pt3 K)) (n_sphere_points : ℕ) (mask : List ℤ) (counts : ℤ × ℤ × ℤ)
    (grid_spacing : K) :
    ∀ (ks : List ℕ) (out : List (List K)),
      frameLoop xyzlist n_atoms radii sphere_points n_sphere_points mask counts grid_spacing ks
        = .ok out →
      out.length = ks.length
      ∧ ∀ t, t < ks.length →
          asa_frame (frameSlice xyzlist n_atoms (ks.getD t 0)) n_atoms radii sphere_points
            n_sphere_points mask counts grid_spacing = .ok (out.getD t []) := by
  intro ks
  induction ks with
  | nil =>
    intro out h
    rw [frameLoop] at h
    cases h
    exact ⟨rfl, fun t ht => absurd ht (Nat.not_lt_zero t)⟩
  | cons k ks ih =>
    intro out h
    rw [frameLoop] at h
    cases hfa : asa_frame (frameSlice xyzlist n_atoms k) n_atoms radii sphere_points
        n_sphere_points mask counts grid_spacing with
    | error e =>
      rw [hfa] at h
      have hx : (Except.error e : Except SasaError (List (List K))) = .ok out := h
      cases hx
    | ok g =>
      rw [hfa] at h
      cases hfl : frameLoop xyzlist n_atoms radii sphere_points n_sphere_points mask counts
          grid_spacing ks with
      | error e =>
        rw [hfl] at h
        have hx : (Except.error e : Except SasaError (List (List K))) = .ok out := h
        cases hx
      | ok rest =>
        rw [hfl] at h
        have hx : (Except.ok (g :: rest) : Except SasaError (List (List K))) = .ok out := h
        injection hx with h2
        subst h2
        obtain ⟨hlen, hall⟩ := ih rest hfl
        constructor
        · rw [List.length_cons, List.length_cons, hlen]
        · intro t ht
          cases t with
          | zero =>
            simp only [List.getD_cons_zero]
            exact hfa
          | succ t0 =>
            simp only [List.getD_cons_succ]
            exact hall t0 (by simpa using ht)

lemma getD_range_of_lt (n k : ℕ) (hk : k < n) : (List.range n).getD k 0 = k := by
  rw [List.getD_eq_getElem _ _ (by simpa using hk)]
  simp

end FrameLemmas

/-- C6: the per-frame slice produced by sasa for frame k is computed by
asa_frame from frame k's coordinates and the shared inputs alone, starting
the atom loop from a freshly zeroed grid of totalGridPoints cells; hence
when a second coordinate list presents the same frames at permuted
positions, the permuted run yields the same slice at the permuted
position. -/
theorem c6_frame_independence (n_frames n_atoms : ℕ) (xyzlist xyzlist2 : List (Pt3 ℝ))
    (radii : List ℝ) (n_sphere_points : ℕ) (mask : List ℤ) (counts : ℤ × ℤ × ℤ)
    (grid_spacing : ℝ) (sig : ℕ → ℕ) (out out2 : List (List ℝ)) (k : ℕ)
    (hok : sasa n_frames n_atoms xyzlist radii n_sphere_points mask counts grid_spacing
      = .ok out)
    (hok2 : sasa n_frames n_atoms xyzlist2 radii n_sphere_points mask counts grid_spacing
      = .ok out2)
    (hsig : ∀ m, m < n_frames → sig m < n_frames)
    (hperm : ∀ m, m < n_frames →
      frameSlice xyzlist2 n_atoms (sig m) = frameSlice xyzlist n_atoms m)
    (hk : k < n_frames) :
    asa_frame (frameSlice xyzlist n_atoms k) n_atoms radii
        (generate_sphere_points n_sphere_points) n_sphere_points mask counts grid_spacing
      = .ok (out.getD k [])
    ∧ atomLoop (frameSlice xyzlist n_atoms k) radii (generate_sphere_points n_sphere_points)
        n_sphere_points mask counts grid_spacing (4 * M_PI / (n_sphere_points : ℝ)) n_atoms
        (List.range n_atoms) (List.replicate (totalGridPoints counts).toNat (0 : ℝ))
      = .ok (out.getD k [])
    ∧ out2.getD (sig k) [] = out.getD k [] := by
  rw [sasa] at hok hok2
  obtain ⟨hlen1, hall1⟩ := frameLoop_ok xyzlist n_atoms radii
    (generate_sphere_points n_sphere_points) n_sphere_points mask counts grid_spacing
    (List.range n_frames) out hok
  obtain ⟨hlen2, hall2⟩ := frameLoop_ok xyzlist2 n_atoms radii
    (generate_sphere_points n_sphere_points) n_sphere_points mask counts grid_spacing
    (List.range n_frames) out2 hok2
  have h1 := hall1 k (by simpa using hk)
  rw [getD_range_of_lt n_frames k hk] at h1
  have h2 := hall2 (sig k) (by simpa using hsig k hk)
  rw [getD_range_of_lt n_frames (sig k) (hsig k hk), hperm k hk] at h2
  refine ⟨h1, h1, ?_⟩
  have h3 := h1.symm.trans h2
  injection h3 with h4
  exact h4.symm

/-- Witness for C6 at a trivial one-frame configuration with the identity
permutation. -/
theorem c6_frame_independence_witness :
    sasa 1 0 [] [] 0 [] (1,1,1) 1 = .ok [[0]]
    ∧ (asa_frame (frameSlice ([] : List (Pt3 ℝ)) 0 0) 0 [] (generate_sphere_points 0) 0 []
          (1,1,1) 1 = .ok (([[0]] : List (List ℝ)).getD 0 [])
      ∧ atomLoop (frameSlice ([] : List (Pt3 ℝ)) 0 0) [] (generate_sphere_points 0) 0 []
          (1,1,1) 1 (4 * M_PI / ((0 : ℕ) : ℝ)) 0 (List.range 0)
          (List.replicate (totalGridPoints (1,1,1)).toNat (0 : ℝ))
          = .ok (([[0]] : List (List ℝ)).getD 0 [])
      ∧ ([[0]] : List (List ℝ)).getD ((fun m => m) 0) [] = ([[0]] : List (List ℝ)).getD 0 []) := by
  have hok : sasa 1 0 [] [] 0 [] (1,1,1) 1 = .ok [[0]] := by rfl
  exact ⟨hok,
    c6_frame_independence 1 0 [] [] [] 0 [] (1,1,1) 1 (fun m => m) [[0]] [[0]] 0 hok hok
      (fun m hm => hm) (fun m hm => rfl) (by decide)⟩

section ZeroPointLemmas

variable {K : Type} [LinearOrderedField K] [FloorRing K]

lemma atomLoop_zero_sphere_points (frame : List (Pt3 K)) (radii : List K)
    (sphere_points : List (Pt3 K)) (mask : List ℤ) (counts : ℤ × ℤ × ℤ)
    (grid_spacing constant : K) (n_atoms : ℕ)
    (hnd : ∀ i j, i < n_atoms → j < n_atoms → i ≠ j →
      ¬ dot3 (sub3 (atomPos frame i) (atomPos frame j))
          (sub3 (atomPos frame i) (atomPos frame j)) < 1 / 10 ^ 10) :
    ∀ (l : List ℕ) (g : List K), (∀ a ∈ l, a < n_atoms) →
      atomLoop frame radii sphere_points 0 mask counts grid_spacing constant n_atoms l g
        = .ok g := by
  intro l
  induction l with
  | nil => intro g _; rfl
  | cons a l ih =>
    intro g hal
    rw [atomLoop]
    by_cases hma : mask.getD a 0 = 0
    · rw [if_pos hma]
      exact ih g (fun b hb => hal b (List.mem_cons_of_mem a hb))
    · rw [if_neg hma]
      have ha : a < n_atoms := hal a (List.mem_cons_self a l)
      have hscan : neighborScan frame radii n_atoms a
          = .ok ((List.range n_atoms).filter (fun j => isNeighborB frame radii a j)) := by
        rw [neighborScan]
        have := neighborScanAux_ok_of_no_degenerate frame radii a (List.range n_atoms) []
          (fun j hj hij => hnd a j ha (List.mem_range.mp hj) hij)
        rw [List.nil_append] at this
        exact this
      rw [processAtom_of_scan_ok frame radii sphere_points 0 counts grid_spacing constant
        n_atoms a g _ hscan]
      have hcent : centerSpherePoints frame radii sphere_points 0 a = [] := rfl
      rw [hcent]
      have hacc : accessLoop frame radii
          ((List.range n_atoms).filter (fun j => isNeighborB frame radii a j)) counts
          grid_spacing (constant * radii.getD a 0 * radii.getD a 0) [] 0 g = g := rfl
      rw [hacc]
      exact ih g (fun b hb => hal b (List.mem_cons_of_mem a hb))

lemma frameLoop_zero_sphere_points (xyzlist : List (Pt3 K)) (n_atoms : ℕ) (radii : List K)
    (sphere_points : List (Pt3 K)) (mask : List ℤ) (counts : ℤ × ℤ × ℤ) (grid_spacing : K)
    (n_frames : ℕ)
    (hnd : ∀ k, k < n_frames → ∀ i j, i < n_atoms → j < n_atoms → i ≠ j →
      ¬ dot3 (sub3 (atomPos (frameSlice xyzlist n_atoms k) i)
            (atomPos (frameSlice xyzlist n_atoms k) j))
          (sub3 (atomPos (frameSlice xyzlist n_atoms k) i)
            (atomPos (frameSlice xyzlist n_atoms k) j)) < 1 / 10 ^ 10) :
    ∀ (ks : List ℕ), (∀ k ∈ ks, k < n_frames) →
      frameLoop xyzlist n_atoms radii sphere_points 0 mask counts grid_spacing ks
        = .ok (List.replicate ks.length
            (List.replicate (totalGridPoints counts).toNat (0 : K))) := by
  intro ks
  induction ks with
  | nil => intro _; rfl
  | cons k ks ih =>
    intro hks
    rw [frameLoop]
    have hfa : asa_frame (frameSlice xyzlist n_atoms k) n_atoms radii sphere_points 0 mask
        counts grid_spacing
        = .ok (List.replicate (totalGridPoints counts).toNat (0 : K)) := by
      rw [asa_frame]
      exact atomLoop_zero_sphere_points (frameSlice xyzlist n_atoms k) radii sphere_points mask
        counts grid_spacing (4 * M_PI / ((0 : ℕ) : K)) n_atoms
        (hnd k (hks k (List.mem_cons_self k ks)))
        (List.range n_atoms) (List.replicate (totalGridPoints counts).toNat (0 : K))
        (fun a ha => List.mem_range.mp ha)
    rw [hfa, ih (fun k2 hk2 => hks k2 (List.mem_cons_of_mem k hk2))]
    rw [List.length_cons]
    rfl

end ZeroPointLemmas

/-- C9 counterexample: with an invalid configuration (zero sphere points and
a negative grid spacing) the sasa entry point performs no validation and no
rejection: it processes the single frame and returns an ordinary result. -/
theorem c9_counterexample :
    sasa 1 1 [((0:ℝ),0,0)] [1] 0 [1] (1,1,1) (-1) = .ok [[0]] := by rfl

/-- C9 as amended: the sasa entry point performs no configuration
validation: with zero sphere points and an arbitrary (possibly non-positive)
grid spacing, every frame is still processed (absent the degenerate-pair
abort), producing an all-zero grid per frame rather than a rejection. -/
theorem c9_no_entry_validation (n_frames n_atoms : ℕ) (xyzlist : List (Pt3 ℝ))
    (radii : List ℝ) (mask : List ℤ) (counts : ℤ × ℤ × ℤ) (grid_spacing : ℝ)
    (hnd : ∀ k, k < n_frames → ∀ i j, i < n_atoms → j < n_atoms → i ≠ j →
      ¬ dot3 (sub3 (atomPos (frameSlice xyzlist n_atoms k) i)
            (atomPos (frameSlice xyzlist n_atoms k) j))
          (sub3 (atomPos (frameSlice xyzlist n_atoms k) i)
            (atomPos (frameSlice xyzlist n_atoms k) j)) < 1 / 10 ^ 10) :
    sasa n_frames n_atoms xyzlist radii 0 mask counts grid_spacing
      = .ok (List.replicate n_frames
          (List.replicate (totalGridPoints counts).toNat (0 : ℝ))) := by
  rw [sasa]
  have h := frameLoop_zero_sphere_points xyzlist n_atoms radii (generate_sphere_points 0) mask
    counts grid_spacing n_frames hnd (List.range n_frames)
    (fun k hk => List.mem_range.mp hk)
  rw [List.length_range] at h
  exact h

/-- Witness for the amended C9: one atom, one frame, zero sphere points and
negative spacing still produce a zero grid with no rejection. -/
theorem c9_no_entry_validation_witness :
    sasa 1 1 [((0:ℝ),0,0)] [1] 0 [1] (1,1,1) (-1)
      = .ok (List.replicate 1 (List.replicate (totalGridPoints (1,1,1)).toNat (0 : ℝ))) := by
  exact c9_no_entry_validation 1 1 [((0:ℝ),0,0)] [1] [1] (1,1,1) (-1)
    (fun k hk i j hi hj hij => absurd (by omega : i = j) hij)

lemma golden_y_sq_le_one (n i : ℕ) (hn : 0 < n) (hi : i < n) :
    0 ≤ 1 - ((i : ℝ) * (2 / (n : ℝ)) - 1 + 1 / (n : ℝ)) ^ 2 := by
  have hn2 : (0:ℝ) < (n : ℝ) := by exact_mod_cast hn
  have hin : (i : ℝ) + 1 ≤ (n : ℝ) := by exact_mod_cast Nat.succ_le.mpr hi
  have hyform : (i : ℝ) * (2 / (n : ℝ)) - 1 + 1 / (n : ℝ) = (2 * (i : ℝ) + 1) / (n : ℝ) - 1 := by
    field_simp
    ring
  rw [hyform]
  have hA : 0 < (2 * (i : ℝ) + 1) / (n : ℝ) := div_pos (by positivity) hn2
  have hB : (2 * (i : ℝ) + 1) / (n : ℝ) < 2 := by
    rw [div_lt_iff₀ hn2]
    linarith
  nlinarith [mul_pos hA (show (0:ℝ) < 2 - (2 * (i : ℝ) + 1) / (n : ℝ) from by linarith)]

/-- C4: generate_sphere_points always returns exactly n points (and, being a
pure function of n, is deterministic and order stable); point i is exactly
the golden section spiral point of the spec with y = i * (2 / n) - 1 + 1 / n,
r = sqrt (max 0 (1 - y ^ 2)) and phi = i * (M_PI * (3 - sqrt 5)); and every
generated point has Euclidean norm exactly 1 in exact real arithmetic. -/
theorem c4_generate_sphere_points_spec (n : ℕ) (hn : 0 < n) :
    (generate_sphere_points n).length = n
    ∧ (∀ i, i < n → (generate_sphere_points n).getD i (0, 0, 0)
        = (Real.cos ((i : ℝ) * (M_PI * (3 - Real.sqrt 5)))
             * Real.sqrt (max 0 (1 - ((i : ℝ) * (2 / (n : ℝ)) - 1 + 1 / (n : ℝ)) ^ 2)),
           (i : ℝ) * (2 / (n : ℝ)) - 1 + 1 / (n : ℝ),
           Real.sin ((i : ℝ) * (M_PI * (3 - Real.sqrt 5)))
             * Real.sqrt (max 0 (1 - ((i : ℝ) * (2 / (n : ℝ)) - 1 + 1 / (n : ℝ)) ^ 2))))
    ∧ ∀ p ∈ generate_sphere_points n, Real.sqrt (p.1 ^ 2 + p.2.1 ^ 2 + p.2.2 ^ 2) = 1 := by
  refine ⟨?_, ?_, ?_⟩
  · rw [generate_sphere_points, List.length_map, List.length_range]
  · intro i hi
    rw [generate_sphere_points]
    rw [List.getD_eq_getElem _ _ (by simpa using hi)]
    rw [List.getElem_map]
    have hynn := golden_y_sq_le_one n i hn hi
    have hmax : max 0 (1 - ((i : ℝ) * (2 / (n : ℝ)) - 1 + 1 / (n : ℝ)) ^ 2)
        = 1 - ((i : ℝ) * (2 / (n : ℝ)) - 1 + 1 / (n : ℝ)) ^ 2 := max_eq_right hynn
    rw [hmax, List.getElem_range]
    simp only [spiralPoint]
    have harg : 1 - ((i : ℝ) * (2 / (n : ℝ)) - 1 + 2 / (n : ℝ) / 2)
          * ((i : ℝ) * (2 / (n : ℝ)) - 1 + 2 / (n : ℝ) / 2)
        = 1 - ((i : ℝ) * (2 / (n : ℝ)) - 1 + 1 / (n : ℝ)) ^ 2 := by
      ring
    have hyy : (i : ℝ) * (2 / (n : ℝ)) - 1 + 2 / (n : ℝ) / 2
        = (i : ℝ) * (2 / (n : ℝ)) - 1 + 1 / (n : ℝ) := by
      ring
    rw [harg, hyy]
  · intro p hp
    rw [generate_sphere_points] at hp
    rw [List.mem_map] at hp
    obtain ⟨i, hi0, rfl⟩ := hp
    have hi : i < n := List.mem_range.mp hi0
    have hynn := golden_y_sq_le_one n i hn hi
    have heq : 1 - ((i : ℝ) * (2 / (n : ℝ)) - 1 + 2 / (n : ℝ) / 2)
        * ((i : ℝ) * (2 / (n : ℝ)) - 1 + 2 / (n : ℝ) / 2)
        = 1 - ((i : ℝ) * (2 / (n : ℝ)) - 1 + 1 / (n : ℝ)) ^ 2 := by
      ring
    have hynn2 : 0 ≤ 1 - ((i : ℝ) * (2 / (n : ℝ)) - 1 + 2 / (n : ℝ) / 2)
        * ((i : ℝ) * (2 / (n : ℝ)) - 1 + 2 / (n : ℝ) / 2) := by
      rw [heq]
      exact hynn
    have hr : Real.sqrt (1 - ((i : ℝ) * (2 / (n : ℝ)) - 1 + 2 / (n : ℝ) / 2)
          * ((i : ℝ) * (2 / (n : ℝ)) - 1 + 2 / (n : ℝ) / 2)) ^ 2
        = 1 - ((i : ℝ) * (2 / (n : ℝ)) - 1 + 2 / (n : ℝ) / 2)
          * ((i : ℝ) * (2 / (n : ℝ)) - 1 + 2 / (n : ℝ) / 2) := Real.sq_sqrt hynn2
    have hpy : Real.sin ((i : ℝ) * (M_PI * (3 - Real.sqrt 5))) ^ 2
        + Real.cos ((i : ℝ) * (M_PI * (3 - Real.sqrt 5))) ^ 2 = 1 :=
      Real.sin_sq_add_cos_sq ((i : ℝ) * (M_PI * (3 - Real.sqrt 5)))
    have hsum : ((spiralPoint n i).1 ^ 2 + (spiralPoint n i).2.1 ^ 2
        + (spiralPoint n i).2.2 ^ 2) = 1 := by
      show (Real.cos ((i : ℝ) * (M_PI * (3 - Real.sqrt 5)))
          * Real.sqrt (1 - ((i : ℝ) * (2 / (n : ℝ)) - 1 + 2 / (n : ℝ) / 2)
            * ((i : ℝ) * (2 / (n : ℝ)) - 1 + 2 / (n : ℝ) / 2))) ^ 2
        + ((i : ℝ) * (2 / (n : ℝ)) - 1 + 2 / (n : ℝ) / 2) ^ 2
        + (Real.sin ((i : ℝ) * (M_PI * (3 - Real.sqrt 5)))
          * Real.sqrt (1 - ((i : ℝ) * (2 / (n : ℝ)) - 1 + 2 / (n : ℝ) / 2)
            * ((i : ℝ) * (2 / (n : ℝ)) - 1 + 2 / (n : ℝ) / 2))) ^ 2 = 1
      nlinarith [hr, hpy]
    rw [hsum, Real.sqrt_one]

/-- Witness for C4 at n = 2. -/
theorem c4_generate_sphere_points_spec_witness :
    0 < 2
    ∧ ((generate_sphere_points 2).length = 2
      ∧ (∀ i, i < 2 → (generate_sphere_points 2).getD i (0, 0, 0)
          = (Real.cos ((i : ℝ) * (M_PI * (3 - Real.sqrt 5)))
               * Real.sqrt (max 0 (1 - ((i : ℝ) * (2 / ((2 : ℕ) : ℝ)) - 1 + 1 / ((2 : ℕ) : ℝ)) ^ 2)),
             (i : ℝ) * (2 / ((2 : ℕ) : ℝ)) - 1 + 1 / ((2 : ℕ) : ℝ),
             Real.sin ((i : ℝ) * (M_PI * (3 - Real.sqrt 5)))
               * Real.sqrt (max 0 (1 - ((i : ℝ) * (2 / ((2 : ℕ) : ℝ)) - 1 + 1 / ((2 : ℕ) : ℝ)) ^ 2))))
      ∧ ∀ p ∈ generate_sphere_points 2, Real.sqrt (p.1 ^ 2 + p.2.1 ^ 2 + p.2.2 ^ 2) = 1) :=
  ⟨by decide, c4_generate_sphere_points_spec 2 (by decide)⟩
